import Mathlib

/-!
Shallow embedding of the rectangle-intersection core of the repository
(`src/rects.rs`, `src/lib.rs`, `src/main.rs`).  Coordinates (Rust `f32`)
are modelled as rationals `ℚ`: the core only compares, swaps and (at the
I/O boundary) adds coordinates.  Fallible steps (Rust slice indexing,
which panics out of bounds) are modelled in the `Option` monad.
-/

namespace RectCore

/-- 2D point (`Point2D` in src/rects.rs). -/
structure Point2D where
  x : ℚ
  y : ℚ
  deriving DecidableEq

/-- Bounding rectangle (`BoundingRect` in src/rects.rs): corners `from` and `to`. -/
structure BoundingRect where
  «from» : Point2D
  «to» : Point2D
  deriving DecidableEq

/-- `BoundingRect::from_points` (src/rects.rs lines 22-30): creates a rectangle
from two points given in any order, sorting each axis independently. -/
def BoundingRect.from_points (a b : Point2D) : BoundingRect :=
  let px := if a.x < b.x then (a.x, b.x) else (b.x, a.x)
  let py := if a.y < b.y then (a.y, b.y) else (b.y, a.y)
  { «from» := { x := px.1, y := py.1 }, «to» := { x := px.2, y := py.2 } }

/-- `lines_intersection` (src/rects.rs lines 34-43): swaps the two segments if
`b.0 < a.0`, then returns `(b.0, min(a.1, b.1))` provided `b.0 < a.1`, else `None`. -/
def lines_intersection (a b : ℚ × ℚ) : Option (ℚ × ℚ) :=
  let p := if b.1 < a.1 then (b, a) else (a, b)
  if p.2.1 < p.1.2 then
    some (p.2.1, if p.1.2 < p.2.2 then p.1.2 else p.2.2)
  else
    none

/-- `BoundingRect::intersect` (src/rects.rs lines 47-55): intersects the x-axis
and y-axis extents; if either yields nothing the rectangles do not intersect. -/
def BoundingRect.intersect (s other : BoundingRect) : Option BoundingRect := do
  let rx ← lines_intersection (s.«from».x, s.«to».x) (other.«from».x, other.«to».x)
  let ry ← lines_intersection (s.«from».y, s.«to».y) (other.«from».y, other.«to».y)
  pure (BoundingRect.from_points { x := rx.1, y := ry.1 } { x := rx.2, y := ry.2 })

/-- The canonical-form invariant of a rectangle: `from.x ≤ to.x ∧ from.y ≤ to.y`. -/
def BoundingRect.canonical (r : BoundingRect) : Prop :=
  r.«from».x ≤ r.«to».x ∧ r.«from».y ≤ r.«to».y

instance (r : BoundingRect) : Decidable r.canonical := by
  unfold BoundingRect.canonical; infer_instance

/-- Non-degeneracy of a rectangle: strictly positive extent on both axes. -/
def BoundingRect.nondegenerate (r : BoundingRect) : Prop :=
  r.«from».x < r.«to».x ∧ r.«from».y < r.«to».y

instance (r : BoundingRect) : Decidable r.nondegenerate := by
  unfold BoundingRect.nondegenerate; infer_instance

/-- The `Shape` trait (src/lib.rs): a required `bounding_rect` method and an
`intersection` method defaulting to intersection of the bounding rectangles. -/
class Shape (S : Type) where
  bounding_rect : S → BoundingRect
  intersection : S → S → Option BoundingRect :=
    fun s other => (bounding_rect s).intersect (bounding_rect other)

/-- `Intersection` (src/lib.rs): summary of one intersecting pair. -/
structure Intersection where
  area : BoundingRect
  a_idx : Nat
  b_idx : Nat
  deriving DecidableEq

variable {S : Type} [Shape S]

/-- `list_intersections` (src/lib.rs lines 29-44): the two nested `for` loops,
`i` over `0..len` and `j` over `i+1..len`, pushing a summary for every pair
whose `intersection` is `Some`.  The loops are folds over the index ranges;
slice indexing `objects[i]` is the fallible `List.get?` in the `Option` monad,
so a `none` result would mean an out-of-bounds panic. -/
def list_intersections (objects : List S) : Option (List Intersection) :=
  (List.range objects.length).foldlM
    (fun acc i =>
      (List.range' (i + 1) (objects.length - (i + 1))).foldlM
        (fun acc2 j => do
          let oi ← objects.get? i
          let oj ← objects.get? j
          pure (match Shape.intersection oi oj with
                | some area => acc2 ++ [{ area := area, a_idx := i, b_idx := j }]
                | none => acc2))
        acc)
    []

/-- `Object` (src/main.rs): one named rectangular object of the input document
(the opaque `properties` list is dropped, it never reaches the core). -/
structure Object where
  name : String
  width : ℚ
  height : ℚ
  x : ℚ
  y : ℚ
  deriving DecidableEq

/-- `ObjectArea` (src/main.rs): an object's name paired with its bounding rectangle. -/
structure ObjectArea where
  name : String
  area : BoundingRect
  deriving DecidableEq

/-- `Object::area` (src/main.rs lines 41-59): reduces an object to its bounding
rectangle via `from_points((x, y), (x + width, y + height))`. -/
def Object.area (o : Object) : ObjectArea :=
  let rect := BoundingRect.from_points
    { x := o.x, y := o.y }
    { x := o.x + o.width, y := o.y + o.height }
  { name := o.name, area := rect }

/-- `impl Shape for ObjectArea` (src/main.rs): `bounding_rect` returns the stored
area; `intersection` is the trait default. -/
instance : Shape ObjectArea where
  bounding_rect o := o.area

/-- Specification-side enumeration of the index pairs `(i, j)` with `i < j < n`,
in lexicographic order (`i` ascending outer, `j` ascending inner). -/
def lexPairs (n : Nat) : List (Nat × Nat) :=
  (List.range n).flatMap fun i =>
    ((List.range n).filter fun j => i < j).map fun j => (i, j)

/-- Specification-side test of one index pair: the summary `list_intersections`
should emit for the pair `p`, if any. -/
def pairIntersection (objects : List S) (p : Nat × Nat) : Option Intersection :=
  match objects.get? p.1, objects.get? p.2 with
  | some a, some b =>
      (Shape.intersection a b).map fun r => { area := r, a_idx := p.1, b_idx := p.2 }
  | _, _ => none

/-! ### Helper lemmas about the embedded operations -/

lemma ite_lt_left_eq_min (x y : ℚ) : (if x < y then x else y) = min x y := by
  split_ifs with h
  · exact (min_eq_left h.le).symm
  · exact (min_eq_right (not_lt.mp h)).symm

lemma ite_lt_right_eq_max (x y : ℚ) : (if x < y then y else x) = max x y := by
  split_ifs with h
  · exact (max_eq_right h.le).symm
  · exact (max_eq_left (not_lt.mp h)).symm

/-- Closed form of `lines_intersection`, by cases on which lower bound is smaller. -/
lemma lines_intersection_eq (a b : ℚ × ℚ) :
    lines_intersection a b =
      if b.1 < a.1 then
        (if a.1 < b.2 then some (a.1, min b.2 a.2) else none)
      else
        (if b.1 < a.2 then some (b.1, min a.2 b.2) else none) := by
  unfold lines_intersection
  rcases lt_or_ge b.1 a.1 with h | h
  · simp only [if_pos h, ite_lt_left_eq_min]
  · simp only [if_neg (not_lt.mpr h), ite_lt_left_eq_min]

/-- `lines_intersection` is order-independent except when the two lower bounds
are equal and exactly one of the segments is degenerate. -/
lemma lines_intersection_symm (a b : ℚ × ℚ)
    (h : a.1 = b.1 → (a.1 < a.2 ↔ b.1 < b.2)) :
    lines_intersection a b = lines_intersection b a := by
  rw [lines_intersection_eq, lines_intersection_eq]
  rcases lt_trichotomy a.1 b.1 with h1 | h1 | h1
  · rw [if_neg (asymm h1), if_pos h1]
  · rw [if_neg (not_lt.mpr h1.ge), if_neg (not_lt.mpr h1.le), ← h1, min_comm]
    have h' := h h1
    rw [← h1] at h'
    rcases lt_or_ge a.1 a.2 with h2 | h2
    · rw [if_pos h2, if_pos (h'.mp h2)]
    · rw [if_neg (not_lt.mpr h2), if_neg (fun hc => absurd (h'.mpr hc) (not_lt.mpr h2))]
  · rw [if_pos h1, if_neg (asymm h1)]

/-- On valid segments a `some` result of `lines_intersection` is an ordered pair. -/
lemma lines_intersection_le {a b r : ℚ × ℚ} (ha : a.1 ≤ a.2) (hb : b.1 ≤ b.2)
    (hr : lines_intersection a b = some r) : r.1 ≤ r.2 := by
  rw [lines_intersection_eq] at hr
  split_ifs at hr with h1 h2 h2 <;> injection hr with hr <;> subst hr
  · exact le_min h2.le ha
  · exact le_min h2.le hb

/-- On strictly ordered segments a `some` result of `lines_intersection` is strict. -/
lemma lines_intersection_lt {a b r : ℚ × ℚ} (ha : a.1 < a.2) (hb : b.1 < b.2)
    (hr : lines_intersection a b = some r) : r.1 < r.2 := by
  rw [lines_intersection_eq] at hr
  split_ifs at hr with h1 h2 h2 <;> injection hr with hr <;> subst hr
  · exact lt_min h2 ha
  · exact lt_min h2 hb

/-- `from_points` in terms of `min` and `max` on each axis. -/
lemma from_points_eq (a b : Point2D) :
    BoundingRect.from_points a b =
      { «from» := { x := min a.x b.x, y := min a.y b.y },
        «to» := { x := max a.x b.x, y := max a.y b.y } } := by
  unfold BoundingRect.from_points
  rcases lt_or_ge a.x b.x with hx | hx <;> rcases lt_or_ge a.y b.y with hy | hy
  · simp [hx, hy, min_eq_left hx.le, min_eq_left hy.le,
      max_eq_right hx.le, max_eq_right hy.le]
  · simp [hx, not_lt.mpr hy, min_eq_left hx.le, min_eq_right hy,
      max_eq_right hx.le, max_eq_left hy]
  · simp [not_lt.mpr hx, hy, min_eq_right hx, min_eq_left hy.le,
      max_eq_left hx, max_eq_right hy.le]
  · simp [not_lt.mpr hx, not_lt.mpr hy, min_eq_right hx,
      min_eq_right hy, max_eq_left hx, max_eq_left hy]

/-- `from_points` on already ordered corner points is the identity packaging. -/
lemma from_points_of_le {a b : Point2D} (hx : a.x ≤ b.x) (hy : a.y ≤ b.y) :
    BoundingRect.from_points a b = { «from» := a, «to» := b } := by
  rw [from_points_eq]
  simp [min_eq_left hx, min_eq_left hy, max_eq_right hx, max_eq_right hy]

/-- Any rectangle built by `from_points` satisfies the canonical invariant. -/
lemma from_points_canonical (a b : Point2D) :
    (BoundingRect.from_points a b).canonical := by
  rw [from_points_eq]
  exact ⟨min_le_max, min_le_max⟩

/-- `intersect` fails exactly when one of the two axis intersections fails. -/
lemma intersect_eq_none_iff (A B : BoundingRect) :
    A.intersect B = none ↔
      lines_intersection (A.«from».x, A.«to».x) (B.«from».x, B.«to».x) = none ∨
      lines_intersection (A.«from».y, A.«to».y) (B.«from».y, B.«to».y) = none := by
  unfold BoundingRect.intersect
  cases hx : lines_intersection (A.«from».x, A.«to».x) (B.«from».x, B.«to».x) <;>
    cases hy : lines_intersection (A.«from».y, A.«to».y) (B.«from».y, B.«to».y) <;>
      simp [hx, hy]

/-- `intersect` on two successful axis intersections packages them via `from_points`. -/
lemma intersect_eq_some {A B : BoundingRect} {p q : ℚ × ℚ}
    (hx : lines_intersection (A.«from».x, A.«to».x) (B.«from».x, B.«to».x) = some p)
    (hy : lines_intersection (A.«from».y, A.«to».y) (B.«from».y, B.«to».y) = some q) :
    A.intersect B =
      some (BoundingRect.from_points { x := p.1, y := q.1 } { x := p.2, y := q.2 }) := by
  unfold BoundingRect.intersect
  rw [hx, hy]
  rfl

/-! ### Helper lemmas about the pairwise search -/

lemma foldlM_option {α β : Type} (l : List α) (f : β → α → Option β) (g : β → α → β)
    (h : ∀ b a, a ∈ l → f b a = some (g b a)) (b : β) :
    l.foldlM f b = some (l.foldl g b) := by
  induction l generalizing b with
  | nil => rfl
  | cons x xs ih =>
      rw [List.foldlM_cons, h b x (List.mem_cons_self x xs)]
      simp only [Option.bind_eq_bind, Option.some_bind, List.foldl_cons]
      exact ih (fun b a ha => h b a (List.mem_cons_of_mem x ha)) (g b x)

lemma foldl_append_eq {α β : Type} (l : List α) (k : α → List β) (acc : List β) :
    l.foldl (fun acc a => acc ++ k a) acc = acc ++ l.flatMap k := by
  induction l generalizing acc with
  | nil => simp
  | cons x xs ih => simp [List.foldl_cons, ih, List.flatMap_cons]

lemma filterMap_eq_flatMap_toList {α β : Type} (f : α → Option β) (l : List α) :
    l.filterMap f = l.flatMap fun a => (f a).toList := by
  induction l with
  | nil => rfl
  | cons x xs ih => cases hfx : f x <;> simp [List.filterMap_cons, hfx, ih]

lemma filterMap_flatMap {α β γ : Type} (l : List α) (g : α → List β) (f : β → Option γ) :
    (l.flatMap g).filterMap f = l.flatMap fun a => (g a).filterMap f := by
  induction l with
  | nil => rfl
  | cons x xs ih => simp [List.flatMap_cons, List.filterMap_append, ih]

lemma range_filter_lt (n k : Nat) :
    ((List.range n).filter fun j => k < j) = List.range' (k + 1) (n - (k + 1)) := by
  induction n with
  | zero => simp
  | succ n ih =>
      rw [List.range_succ, List.filter_append, ih]
      rcases lt_or_ge k n with h | h
      · have h1 : n + 1 - (k + 1) = (n - (k + 1)) + 1 := by omega
        have h2 : k + 1 + 1 * (n - (k + 1)) = n := by omega
        rw [h1, List.range'_concat, h2]
        simp [List.filter, h]
      · have h1 : n + 1 - (k + 1) = 0 := by omega
        have h2 : n - (k + 1) = 0 := by omega
        rw [h1, h2]
        simp [List.filter, not_lt.mpr h]

variable {S : Type} [Shape S]

lemma inner_fold_eq (objects : List S) {i : Nat} (hi : i < objects.length)
    (acc : List Intersection) :
    (List.range' (i + 1) (objects.length - (i + 1))).foldlM
      (fun acc2 j => do
        let oi ← objects.get? i
        let oj ← objects.get? j
        pure (match Shape.intersection oi oj with
              | some area => acc2 ++ [{ area := area, a_idx := i, b_idx := j }]
              | none => acc2))
      acc
    = some (acc ++ (List.range' (i + 1) (objects.length - (i + 1))).flatMap
        fun j => (pairIntersection objects (i, j)).toList) := by
  have hstep : ∀ (acc2 : List Intersection) (j : Nat),
      j ∈ List.range' (i + 1) (objects.length - (i + 1)) →
      (do
        let oi ← objects.get? i
        let oj ← objects.get? j
        pure (match Shape.intersection oi oj with
              | some area => acc2 ++ [{ area := area, a_idx := i, b_idx := j }]
              | none => acc2) : Option (List Intersection))
      = some (acc2 ++ (pairIntersection objects (i, j)).toList) := by
    intro acc2 j hj
    have hjlen : j < objects.length := by
      rcases List.mem_range'.mp hj with ⟨t, ht, rfl⟩
      omega
    unfold pairIntersection
    rw [List.get?_eq_get hi, List.get?_eq_get hjlen]
    simp only [List.get_eq_getElem]
    cases hint : Shape.intersection objects[i] objects[j] <;> simp [hint]
  rw [foldlM_option _ _ _ hstep, foldl_append_eq]

lemma list_intersections_eq (objects : List S) :
    list_intersections objects
      = some ((List.range objects.length).flatMap fun i =>
          (List.range' (i + 1) (objects.length - (i + 1))).flatMap fun j =>
            (pairIntersection objects (i, j)).toList) := by
  unfold list_intersections
  have houter : ∀ (acc : List Intersection) (i : Nat), i ∈ List.range objects.length →
      ((List.range' (i + 1) (objects.length - (i + 1))).foldlM
        (fun acc2 j => do
          let oi ← objects.get? i
          let oj ← objects.get? j
          pure (match Shape.intersection oi oj with
                | some area => acc2 ++ [{ area := area, a_idx := i, b_idx := j }]
                | none => acc2))
        acc)
      = some (acc ++ (List.range' (i + 1) (objects.length - (i + 1))).flatMap
          fun j => (pairIntersection objects (i, j)).toList) := by
    intro acc i hi
    exact inner_fold_eq objects (List.mem_range.mp hi) acc
  rw [foldlM_option _ _ _ houter, foldl_append_eq, List.nil_append]

lemma lexPairs_filterMap (objects : List S) :
    (lexPairs objects.length).filterMap (pairIntersection objects)
      = (List.range objects.length).flatMap fun i =>
          (List.range' (i + 1) (objects.length - (i + 1))).flatMap fun j =>
            (pairIntersection objects (i, j)).toList := by
  unfold lexPairs
  rw [filterMap_flatMap]
  congr 1
  funext i
  rw [List.filterMap_map, range_filter_lt, filterMap_eq_flatMap_toList]
  rfl

/-- Central characterization: the nested loops of `list_intersections` never index
out of bounds and produce exactly the summaries of the lexicographic pair
enumeration. -/
lemma list_intersections_spec (objects : List S) :
    list_intersections objects
      = some ((lexPairs objects.length).filterMap (pairIntersection objects)) := by
  rw [list_intersections_eq, lexPairs_filterMap]

/-- A `some` result of `intersect` decomposes into successful axis intersections
packaged by `from_points`. -/
lemma intersect_some_cases {A B r : BoundingRect} (hr : A.intersect B = some r) :
    ∃ p q,
      lines_intersection (A.«from».x, A.«to».x) (B.«from».x, B.«to».x) = some p ∧
      lines_intersection (A.«from».y, A.«to».y) (B.«from».y, B.«to».y) = some q ∧
      r = BoundingRect.from_points { x := p.1, y := q.1 } { x := p.2, y := q.2 } := by
  rcases hx : lines_intersection (A.«from».x, A.«to».x) (B.«from».x, B.«to».x) with _ | p
  · rw [(intersect_eq_none_iff A B).mpr (Or.inl hx)] at hr
    cases hr
  · rcases hy : lines_intersection (A.«from».y, A.«to».y) (B.«from».y, B.«to».y) with _ | q
    · rw [(intersect_eq_none_iff A B).mpr (Or.inr hy)] at hr
      cases hr
    · rw [intersect_eq_some hx hy] at hr
      injection hr with hr
      exact ⟨p, q, rfl, rfl, hr.symm⟩

/-! ### The claims -/

/-- C1: `list_intersections` succeeds on every input and returns exactly one summary
for each index pair `(i, j)` with `i < j` whose `intersection` test yields a
rectangle, carrying that rectangle and the indices `a_idx = i < b_idx = j`, in
lexicographic order on `(i, j)` (`lexPairs` enumerates `i` ascending outer, `j`
ascending inner); `filterMap` keeps exactly the successful pairs in that order.
Empty and singleton inputs give `lexPairs 0 = lexPairs 1 = []`, hence an empty
result. -/
theorem list_intersections_lex_enumeration {S : Type} [Shape S] (objects : List S) :
    list_intersections objects
      = some ((lexPairs objects.length).filterMap (pairIntersection objects)) :=
  list_intersections_spec objects

/-- C2 counterexample: `lines_intersection` is not order-independent on valid
intervals: with `a = (0,0)` and `b = (0,5)` (equal lower bounds, exactly one
degenerate) one argument order yields nothing and the other yields `(0,0)`. -/
theorem lines_intersection_swap_cex :
    lines_intersection (0, 0) (0, 5) = none ∧
    lines_intersection (0, 5) (0, 0) = some (0, 0) ∧
    lines_intersection (0, 0) (0, 5) ≠ lines_intersection (0, 5) (0, 0) := by
  decide

/-- C2 (amended): on valid intervals, with `first` the interval of strictly
smaller lower bound (the first argument on ties), the result is nothing when
`second.lo ≥ first.hi` and `(second.lo, min(first.hi, second.hi))` otherwise;
swapping the arguments yields the identical result provided the lower bounds
differ or the two intervals are both (or neither) degenerate. -/
theorem lines_intersection_characterization (a b : ℚ × ℚ)
    (_ha : a.1 ≤ a.2) (_hb : b.1 ≤ b.2) :
    (lines_intersection a b =
      if b.1 < a.1 then
        (if b.2 ≤ a.1 then none else some (a.1, min b.2 a.2))
      else
        (if a.2 ≤ b.1 then none else some (b.1, min a.2 b.2))) ∧
    ((a.1 = b.1 → (a.1 < a.2 ↔ b.1 < b.2)) →
      lines_intersection a b = lines_intersection b a) := by
  constructor
  · rw [lines_intersection_eq]
    rcases lt_or_ge b.1 a.1 with h | h
    · rw [if_pos h, if_pos h]
      rcases lt_or_ge a.1 b.2 with h2 | h2
      · rw [if_pos h2, if_neg (not_le.mpr h2)]
      · rw [if_neg (not_lt.mpr h2), if_pos h2]
    · rw [if_neg (not_lt.mpr h), if_neg (not_lt.mpr h)]
      rcases lt_or_ge b.1 a.2 with h2 | h2
      · rw [if_pos h2, if_neg (not_le.mpr h2)]
      · rw [if_neg (not_lt.mpr h2), if_pos h2]
  · exact lines_intersection_symm a b

/-- C2 witness: the amended characterization applied to the intervals `(3,7)`
and `(6,10)`. -/
theorem lines_intersection_characterization_witness :
    (lines_intersection ((3 : ℚ), 7) (6, 10) =
      if (6 : ℚ) < 3 then
        (if (10 : ℚ) ≤ 3 then none else some ((3 : ℚ), min 10 7))
      else
        (if (7 : ℚ) ≤ 6 then none else some ((6 : ℚ), min 7 10))) ∧
    (((3 : ℚ) = 6 → ((3 : ℚ) < 7 ↔ (6 : ℚ) < 10)) →
      lines_intersection ((3 : ℚ), 7) (6, 10) = lines_intersection (6, 10) (3, 7)) :=
  lines_intersection_characterization (3, 7) (6, 10) (by decide) (by decide)

/-- C3 counterexample: the canonical degenerate rectangle `[0,0]-[0,1]` does not
intersect itself: `A.intersect(A)` is `none`, not `Some(A)`. -/
theorem self_intersection_degenerate_cex :
    (BoundingRect.mk ⟨0, 0⟩ ⟨0, 1⟩).canonical ∧
    (BoundingRect.mk ⟨0, 0⟩ ⟨0, 1⟩).intersect (BoundingRect.mk ⟨0, 0⟩ ⟨0, 1⟩) = none := by
  decide

/-- C3 (amended): every non-degenerate rectangle intersects itself, yielding
itself back. -/
theorem self_intersection (A : BoundingRect) (h : A.nondegenerate) :
    A.intersect A = some A := by
  have hline : ∀ u v : ℚ, u < v → lines_intersection (u, v) (u, v) = some (u, v) := by
    intro u v huv
    rw [lines_intersection_eq]
    simp [lt_irrefl, huv]
  rw [intersect_eq_some (hline _ _ h.1) (hline _ _ h.2),
    from_points_of_le h.1.le h.2.le]

/-- C3 witness: the rectangle `[1,1]-[5,5]` self-intersects to itself. -/
theorem self_intersection_witness :
    (BoundingRect.mk ⟨1, 1⟩ ⟨5, 5⟩).intersect (BoundingRect.mk ⟨1, 1⟩ ⟨5, 5⟩)
      = some (BoundingRect.mk ⟨1, 1⟩ ⟨5, 5⟩) :=
  self_intersection (BoundingRect.mk ⟨1, 1⟩ ⟨5, 5⟩) (by decide)

/-- C4: on canonical rectangles, `intersect` fails exactly when the x-axis or
the y-axis interval intersection fails, and otherwise returns the canonical
rectangle assembled from the two resulting axis intervals. -/
theorem intersect_axiswise (A B : BoundingRect) (hA : A.canonical) (hB : B.canonical) :
    (A.intersect B = none ↔
      lines_intersection (A.«from».x, A.«to».x) (B.«from».x, B.«to».x) = none ∨
      lines_intersection (A.«from».y, A.«to».y) (B.«from».y, B.«to».y) = none) ∧
    (∀ p q,
      lines_intersection (A.«from».x, A.«to».x) (B.«from».x, B.«to».x) = some p →
      lines_intersection (A.«from».y, A.«to».y) (B.«from».y, B.«to».y) = some q →
      A.intersect B =
        some { «from» := { x := p.1, y := q.1 }, «to» := { x := p.2, y := q.2 } }) := by
  refine ⟨intersect_eq_none_iff A B, fun p q hx hy => ?_⟩
  rw [intersect_eq_some hx hy,
    from_points_of_le (lines_intersection_le hA.1 hB.1 hx) (lines_intersection_le hA.2 hB.2 hy)]

/-- C4 witness: `[1,1]-[5,5]` against `[3,2]-[6,7]` intersects to `[3,2]-[5,5]`,
assembled from the axis intervals `(3,5)` and `(2,5)`. -/
theorem intersect_axiswise_witness :
    (BoundingRect.mk ⟨1, 1⟩ ⟨5, 5⟩).intersect (BoundingRect.mk ⟨3, 2⟩ ⟨6, 7⟩)
      = some (BoundingRect.mk ⟨3, 2⟩ ⟨5, 5⟩) :=
  (intersect_axiswise (BoundingRect.mk ⟨1, 1⟩ ⟨5, 5⟩) (BoundingRect.mk ⟨3, 2⟩ ⟨6, 7⟩)
    (by decide) (by decide)).2 (3, 5) (2, 5) (by decide) (by decide)

/-- C5 counterexample: `intersect` is not symmetric on all rectangles: for the
canonical rectangles `A = [0,0]-[0,5]` (degenerate in x) and `B = [0,0]-[5,5]`,
`A.intersect(B)` is `none` while `B.intersect(A)` is `Some([0,0]-[0,5])`. -/
theorem intersect_symm_cex :
    (BoundingRect.mk ⟨0, 0⟩ ⟨0, 5⟩).intersect (BoundingRect.mk ⟨0, 0⟩ ⟨5, 5⟩) = none ∧
    (BoundingRect.mk ⟨0, 0⟩ ⟨5, 5⟩).intersect (BoundingRect.mk ⟨0, 0⟩ ⟨0, 5⟩)
      = some (BoundingRect.mk ⟨0, 0⟩ ⟨0, 5⟩) ∧
    (BoundingRect.mk ⟨0, 0⟩ ⟨0, 5⟩).intersect (BoundingRect.mk ⟨0, 0⟩ ⟨5, 5⟩) ≠
      (BoundingRect.mk ⟨0, 0⟩ ⟨5, 5⟩).intersect (BoundingRect.mk ⟨0, 0⟩ ⟨0, 5⟩) := by
  decide

/-- C5 (amended): `intersect` is symmetric whenever on each axis it is not the
case that the two extents share their lower bound with exactly one of them
degenerate; in particular it is symmetric on all non-degenerate rectangles. -/
theorem intersect_symmetric (A B : BoundingRect)
    (hx : A.«from».x = B.«from».x → (A.«from».x < A.«to».x ↔ B.«from».x < B.«to».x))
    (hy : A.«from».y = B.«from».y → (A.«from».y < A.«to».y ↔ B.«from».y < B.«to».y)) :
    A.intersect B = B.intersect A := by
  unfold BoundingRect.intersect
  rw [lines_intersection_symm (A.«from».x, A.«to».x) (B.«from».x, B.«to».x) hx,
    lines_intersection_symm (A.«from».y, A.«to».y) (B.«from».y, B.«to».y) hy]

/-- C5 witness: symmetry at the rectangles `[1,1]-[5,5]` and `[3,2]-[6,7]`. -/
theorem intersect_symmetric_witness :
    (BoundingRect.mk ⟨1, 1⟩ ⟨5, 5⟩).intersect (BoundingRect.mk ⟨3, 2⟩ ⟨6, 7⟩)
      = (BoundingRect.mk ⟨3, 2⟩ ⟨6, 7⟩).intersect (BoundingRect.mk ⟨1, 1⟩ ⟨5, 5⟩) :=
  intersect_symmetric (BoundingRect.mk ⟨1, 1⟩ ⟨5, 5⟩) (BoundingRect.mk ⟨3, 2⟩ ⟨6, 7⟩)
    (by decide) (by decide)

/-- C6: `from_points` returns the canonical rectangle with componentwise `min`
as `from` and componentwise `max` as `to`, and is order-independent. -/
theorem from_points_min_max (a b : Point2D) :
    (BoundingRect.from_points a b =
      { «from» := { x := min a.x b.x, y := min a.y b.y },
        «to» := { x := max a.x b.x, y := max a.y b.y } }) ∧
    BoundingRect.from_points a b = BoundingRect.from_points b a := by
  refine ⟨from_points_eq a b, ?_⟩
  simp [from_points_eq, min_comm, max_comm]

/-- C7: every rectangle the core produces satisfies the canonical invariant
`from.x ≤ to.x ∧ from.y ≤ to.y`: `from_points` unconditionally, and every
`Some` result of `intersect` on canonical inputs. -/
theorem canonical_invariant :
    (∀ a b : Point2D, (BoundingRect.from_points a b).canonical) ∧
    (∀ A B r : BoundingRect, A.canonical → B.canonical →
      A.intersect B = some r → r.canonical) := by
  refine ⟨from_points_canonical, fun A B r _ _ hr => ?_⟩
  rcases intersect_some_cases hr with ⟨p, q, -, -, rfl⟩
  exact from_points_canonical _ _

/-- C7 witness: the invariant at a construction from unordered corners and at a
concrete `Some` result of `intersect`. -/
theorem canonical_invariant_witness :
    (BoundingRect.from_points ⟨0, 3⟩ ⟨2, 1⟩).canonical ∧
    (BoundingRect.mk ⟨3, 2⟩ ⟨5, 5⟩).canonical :=
  ⟨canonical_invariant.1 ⟨0, 3⟩ ⟨2, 1⟩,
   canonical_invariant.2 (BoundingRect.mk ⟨1, 1⟩ ⟨5, 5⟩) (BoundingRect.mk ⟨3, 2⟩ ⟨6, 7⟩)
     (BoundingRect.mk ⟨3, 2⟩ ⟨5, 5⟩) (by decide) (by decide) (by decide)⟩

/-- C8: the pairwise search is total: its only fallible steps, the slice
accesses `objects[i]` and `objects[j]` (modelled in the `Option` monad, where
`none` would be an out-of-bounds panic), always succeed, so `list_intersections`
returns a result on every input list; absence of intersections is the empty
list inside `some`, never a failure.  `from_points`, `lines_intersection` and
`intersect` are total Lean functions of their input types, with `none`
expressing "no intersection" rather than an error. -/
theorem core_total {S : Type} [Shape S] (objects : List S) :
    ∃ res, list_intersections objects = some res :=
  ⟨_, list_intersections_spec objects⟩

/-- C9 counterexample: for the object with `x = 0`, `y = 0`, `width = -1`,
`height = 1`, the boundary reduction canonicalizes the corners, producing
`[-1,0]-[0,1]` and not `from = (0,0)`, `to = (0 + (-1), 0 + 1)`. -/
theorem object_area_negative_cex :
    (Object.area { name := "o", width := -1, height := 1, x := 0, y := 0 }).area
      = BoundingRect.mk ⟨-1, 0⟩ ⟨0, 1⟩ ∧
    (Object.area { name := "o", width := -1, height := 1, x := 0, y := 0 }).area
      ≠ { «from» := { x := 0, y := 0 }, «to» := { x := 0 + (-1), y := 0 + 1 } } := by
  constructor
  · norm_num [Object.area, BoundingRect.from_points]
  · norm_num [Object.area, BoundingRect.from_points]

/-- C9 (amended): for every input object with nonnegative `width` and `height`,
the boundary reduction yields exactly the rectangle `from = (x, y)`,
`to = (x + width, y + height)`. -/
theorem object_area_boundary (o : Object) (hw : 0 ≤ o.width) (hh : 0 ≤ o.height) :
    (Object.area o).area =
      { «from» := { x := o.x, y := o.y },
        «to» := { x := o.x + o.width, y := o.y + o.height } } := by
  unfold Object.area
  exact from_points_of_le (le_add_of_nonneg_right hw) (le_add_of_nonneg_right hh)

/-- C9 witness: the object at `(1, 1)` with width 2 and height 3 reduces to
`[1,1]-[3,4]`. -/
theorem object_area_boundary_witness :
    (Object.area { name := "a", width := 2, height := 3, x := 1, y := 1 }).area =
      { «from» := { x := 1, y := 1 }, «to» := { x := 1 + 2, y := 1 + 3 } } :=
  object_area_boundary { name := "a", width := 2, height := 3, x := 1, y := 1 }
    (by decide) (by decide)

/-- C10: on non-degenerate rectangles a `Some` result of `intersect` is itself
non-degenerate: strictly positive extent on both axes. -/
theorem intersect_nondegenerate (A B r : BoundingRect)
    (hA : A.nondegenerate) (hB : B.nondegenerate)
    (hr : A.intersect B = some r) : r.nondegenerate := by
  rcases intersect_some_cases hr with ⟨p, q, hx, hy, rfl⟩
  have hpx : p.1 < p.2 := lines_intersection_lt hA.1 hB.1 hx
  have hqy : q.1 < q.2 := lines_intersection_lt hA.2 hB.2 hy
  rw [from_points_of_le hpx.le hqy.le]
  exact ⟨hpx, hqy⟩

/-- C10 witness: `[0,0]-[2,2]` and `[1,1]-[3,3]` intersect to the non-degenerate
`[1,1]-[2,2]`. -/
theorem intersect_nondegenerate_witness :
    (BoundingRect.mk ⟨1, 1⟩ ⟨2, 2⟩).nondegenerate :=
  intersect_nondegenerate (BoundingRect.mk ⟨0, 0⟩ ⟨2, 2⟩) (BoundingRect.mk ⟨1, 1⟩ ⟨3, 3⟩)
    (BoundingRect.mk ⟨1, 1⟩ ⟨2, 2⟩) (by decide) (by decide) (by decide)

end RectCore
